import Mathlib

/-!
# Fee collection contract bytecode generator — verification

Shallow embedding of `crates/chain-config/src/fee_collection_contract.rs`:
the pure bytecode generator `generate` for the fee collection contract, and
the invocation script / script-data construction from `collect_fees`.

The instruction encoding primitives come from the external `fuel-asm` crate
(an external collaborator the spec assumes correct): every FuelVM
instruction is one 4-byte big-endian word, opcode in the top 8 bits,
register operands in 6-bit fields, immediates in the low bits.  Multi-byte
integers in the canonical transaction serialization (`fuel_types::canonical`)
are big-endian, matching the FuelVM's native byte order.
-/

namespace FeeCollection

/-! ## Fixed widths (external interface constants) -/

/-- The `Address::LEN` — a Fuel address is 32 bytes. -/
def addressLen : Nat := 32

/-- The `AssetId::LEN` — an asset id is 32 bytes. -/
def assetIdLen : Nat := 32

/-- The `ContractId::LEN` — a contract id is 32 bytes. -/
def contractIdLen : Nat := 32

/-- The `Instruction::SIZE` — every FuelVM instruction is one 4-byte word. -/
def instructionSize : Nat := 4

/-- The `core::mem::size_of::<u64>()` — the canonical serialized size of `u64`
(`output_index.size()` in the source). -/
def u64Size : Nat := 8

/-! ## Reserved register ids (`fuel_asm::RegId`) -/

/-- The `RegId::ZERO` — always reads 0. -/
def regZERO : Nat := 0x00

/-- The `RegId::ONE` — always reads 1; used as the success return signal. -/
def regONE : Nat := 0x01

/-- The `RegId::FP` — frame pointer; in a contract context `$fp` points at the
call frame, which begins with the contract's own id. -/
def regFP : Nat := 0x06

/-- The `RegId::CGAS` — remaining gas in this context. -/
def regCGAS : Nat := 0x0A

/-- The `RegId::IS` — pointer to the start of the currently executing code. -/
def regIS : Nat := 0x0C

/-! ## The instruction subset used by the source

Each constructor mirrors one `fuel_asm::op` constructor used in
`fee_collection_contract.rs`, with the operand order of the source call. -/

inductive Instr where
  /-- The `op::ji(imm)` — absolute jump to instruction word `imm` (24-bit imm). -/
  | ji (imm : Nat)
  /-- The `op::gtf(ra, rb, imm)` — get transaction field (here: the
  script-data pointer); `op::gtf_args(ra, rb, args)` is `gtf` with the
  selector as 12-bit immediate. -/
  | gtf (ra rb imm : Nat)
  /-- The `op::addi(ra, rb, imm)` — `ra := rb + imm` (12-bit imm). -/
  | addi (ra rb imm : Nat)
  /-- The `op::lw(ra, rb, imm)` — load the 64-bit word at `rb + 8*imm`. -/
  | lw (ra rb imm : Nat)
  /-- The `op::move_(ra, rb)` — `ra := rb`. -/
  | move (ra rb : Nat)
  /-- The `op::bal(ra, rb, rc)` — balance of asset id at `rb` held by the
  contract whose id is at `rc`, into `ra`. -/
  | bal (ra rb rc : Nat)
  /-- The `op::jnzf(ra, rb, imm)` — if `ra ≠ 0`, jump forward `rb + imm + 1`
  instruction words, else fall through. -/
  | jnzf (ra rb imm : Nat)
  /-- The `op::ret(ra)` — return from context with signal `ra`. -/
  | ret (ra : Nat)
  /-- The `op::tro(ra, rb, rc, rd)` — transfer `rc` coins of asset id at `rd`
  to the variable output at index `rb`, owner address at `ra`. -/
  | tro (ra rb rc rd : Nat)
  /-- The `op::call(ra, rb, rc, rd)` — call the contract described by the call
  descriptor at `ra`, forwarding `rb` coins of asset id at `rc`, gas `rd`. -/
  | call (ra rb rc rd : Nat)
deriving DecidableEq, Repr

/-- The `GTFArgs::ScriptData` — the `gtf` immediate selecting the pointer to
the transaction's script-data region (`fuel_asm::GTFArgs`). -/
def gtfScriptData : Nat := 0x00C

/-! ## Instruction encoding (`fuel_asm`, external collaborator)

A `fuel_asm::Instruction` packs, most significant bits first:
opcode (8 bits), then rA, rB, rC, rD (6 bits each); an instruction with a
12-bit immediate uses the rC and rD field bits for it, an 18-bit immediate
the rB..rD bits, a 24-bit immediate the rA..rD bits.  `Instruction::into`
emits the word as 4 big-endian bytes. -/

/-- The opcode byte of each instruction (FuelVM instruction-set numbering). -/
def opcodeOf : Instr → Nat
  | .ji _ => 0x70
  | .gtf _ _ _ => 0x61
  | .addi _ _ _ => 0x50
  | .lw _ _ _ => 0x5D
  | .move _ _ => 0x1A
  | .bal _ _ _ => 0x49
  | .jnzf _ _ _ => 0x74
  | .ret _ => 0x24
  | .tro _ _ _ _ => 0x41
  | .call _ _ _ _ => 0x2D

/-- The low 24 bits of an instruction word: registers in 6-bit fields from
bit 18 down, immediates in the low bits. -/
def fieldsOf : Instr → Nat
  | .ji imm => imm % 2 ^ 24
  | .gtf ra rb imm => ra % 64 * 2 ^ 18 + rb % 64 * 2 ^ 12 + imm % 2 ^ 12
  | .addi ra rb imm => ra % 64 * 2 ^ 18 + rb % 64 * 2 ^ 12 + imm % 2 ^ 12
  | .lw ra rb imm => ra % 64 * 2 ^ 18 + rb % 64 * 2 ^ 12 + imm % 2 ^ 12
  | .move ra rb => ra % 64 * 2 ^ 18 + rb % 64 * 2 ^ 12
  | .bal ra rb rc => ra % 64 * 2 ^ 18 + rb % 64 * 2 ^ 12 + rc % 64 * 2 ^ 6
  | .jnzf ra rb imm => ra % 64 * 2 ^ 18 + rb % 64 * 2 ^ 12 + imm % 2 ^ 12
  | .ret ra => ra % 64 * 2 ^ 18
  | .tro ra rb rc rd =>
      ra % 64 * 2 ^ 18 + rb % 64 * 2 ^ 12 + rc % 64 * 2 ^ 6 + rd % 64
  | .call ra rb rc rd =>
      ra % 64 * 2 ^ 18 + rb % 64 * 2 ^ 12 + rc % 64 * 2 ^ 6 + rd % 64

/-- The full 32-bit instruction word. -/
def encodeWord (i : Instr) : Nat := opcodeOf i * 2 ^ 24 + fieldsOf i

/-- The `len` big-endian bytes of `n`. -/
def toBytesBE (len n : Nat) : List Nat :=
  (List.range len).map fun i => n / 256 ^ (len - 1 - i) % 256

/-- The 4 big-endian bytes of one instruction
(`impl From<Instruction> for [u8; 4]`). -/
def encodeInstr (i : Instr) : List Nat := toBytesBE 4 (encodeWord i)

/-- Byte stream of an instruction list
(`Vec<Instruction> -> Vec<u8>` via `into_iter().collect()`). -/
def encodeStream (l : List Instr) : List Nat := (l.map encodeInstr).flatten

/-- Decode a 4-byte big-endian word back to its 32-bit value. -/
def decodeWord (bytes : List Nat) : Nat :=
  bytes.foldl (fun acc b => acc * 256 + b) 0

/-- The opcode byte of a 32-bit instruction word. -/
def wordOpcode (w : Nat) : Nat := w / 2 ^ 24

/-- The 24-bit immediate of a 32-bit instruction word (`ji`'s operand). -/
def wordImm24 (w : Nat) : Nat := w % 2 ^ 24

/-! ## Fallible integer conversions (`try_into` / `try_from`) -/

/-- The `usize::try_into::<u32>()` as used for the `ji` jump target. -/
def tryIntoU32 (n : Nat) : Option Nat :=
  if n < 2 ^ 32 then some n else none

/-- The `u16::try_from` / `usize::try_into::<u16>()` as used for the `addi`
immediates. -/
def tryIntoU16 (n : Nat) : Option Nat :=
  if n < 2 ^ 16 then some n else none

/-! ## The program generator (`generate`) -/

/-- The `asset_id_register` — scratch register holding the script-data pointer
(then read as the asset id pointer). -/
def asset_id_register : Nat := 0x10

/-- The `balance_register` — scratch register holding the queried balance. -/
def balance_register : Nat := 0x11

/-- The `contract_id_register` — scratch register holding the pointer to the
contract's own id. -/
def contract_id_register : Nat := 0x12

/-- The `output_index_register` — scratch register holding (a pointer to, then
the value of) the output index. -/
def output_index_register : Nat := 0x13

/-- The `recipient_id_register` — scratch register holding the pointer to the
embedded recipient address. -/
def recipient_id_register : Nat := 0x14

/-- The `start_jump` vector: one `ji` over the embedded address, its target
computed as `(1 + (Address::LEN / Instruction::SIZE)).try_into().unwrap()`. -/
def start_jump : Option (List Instr) :=
  (tryIntoU32 (1 + addressLen / instructionSize)).map fun t => [.ji t]

/-- The `body` vector of `generate` (instruction order of the source). -/
def body : Option (List Instr) := do
  let assetLenImm ← tryIntoU16 assetIdLen
  let instrSizeImm ← tryIntoU16 instructionSize
  pure
    [ .gtf asset_id_register 0x00 gtfScriptData
    , .addi output_index_register asset_id_register assetLenImm
    , .lw output_index_register output_index_register 0
    , .move contract_id_register regFP
    , .bal balance_register asset_id_register contract_id_register
    , .jnzf balance_register regZERO 1
    , .ret regONE
    , .addi recipient_id_register regIS instrSizeImm
    , .tro recipient_id_register output_index_register balance_register
        asset_id_register
    , .ret regONE ]

/-- The `generate(address)`: start-jump bytes, then the raw embedded address,
then the body bytes.  The `Option` records the three fallible conversions
(`unwrap` / `expect` in the source). -/
def generate (address : List Nat) : Option (List Nat) := do
  let sj ← start_jump
  let b ← body
  pure (encodeStream sj ++ address ++ encodeStream b)

/-- The start-jump instruction list with its conversion discharged. -/
def startJumpI : List Instr := [.ji 9]

/-- The body instruction list with its conversions discharged. -/
def bodyI : List Instr :=
  [ .gtf asset_id_register 0x00 gtfScriptData
  , .addi output_index_register asset_id_register 32
  , .lw output_index_register output_index_register 0
  , .move contract_id_register regFP
  , .bal balance_register asset_id_register contract_id_register
  , .jnzf balance_register regZERO 1
  , .ret regONE
  , .addi recipient_id_register regIS 4
  , .tro recipient_id_register output_index_register balance_register
      asset_id_register
  , .ret regONE ]

/-- The byte output of `generate` with the conversions discharged. -/
def generateBytes (address : List Nat) : List Nat :=
  encodeStream startJumpI ++ address ++ encodeStream bodyI

/-! ## The invocation builder (from `collect_fees`) -/

/-- The `call_struct_register` — the scratch register of the invocation script. -/
def call_struct_register : Nat := 0x10

/-- The invocation script of `collect_fees`: point at script data, advance
past the asset id and output index, call, return success. -/
def collectFeesScript : List Instr :=
  [ .gtf call_struct_register 0x00 gtfScriptData
  , .addi call_struct_register call_struct_register (assetIdLen + u64Size)
  , .call call_struct_register regZERO regZERO regCGAS
  , .ret regONE ]

/-- The script-data blob of `collect_fees`:
`asset_id.to_bytes() ‖ output_index.to_bytes() ‖ contract_id.to_bytes() ‖
0u64.to_bytes() ‖ 0u64.to_bytes()` under `fuel_types::canonical::Serialize`
(32-byte ids serialize as their raw bytes; `u64` as 8 big-endian bytes). -/
def scriptDataBlob (assetId : List Nat) (outputIndex : Nat)
    (contractId : List Nat) : List Nat :=
  assetId ++ toBytesBE 8 outputIndex ++ contractId
    ++ toBytesBE 8 0 ++ toBytesBE 8 0

/-! ## Auxiliary predicates and modelled collaborator semantics -/

/-- Recognizes a return instruction. -/
def isRet : Instr → Bool
  | .ret _ => true
  | _ => false

/-- Recognizes a transfer-to-output instruction. -/
def isTro : Instr → Bool
  | .tro _ _ _ _ => true
  | _ => false

/-- Modelled from the spec: the program counter update of the VM
collaborator's `JNZF` instruction (spec §6, "conditional relative jump"),
in instruction-word units: if the condition register `cond` is nonzero the
next executed word is `idx + (rb + imm + 1)`, otherwise execution falls
through to `idx + 1`. -/
def jnzfNextWord (cond rb imm idx : Nat) : Nat :=
  if cond ≠ 0 then idx + (rb + imm + 1) else idx + 1

/-- The `len` little-endian bytes of `n` (spec-side definition, used to state
the spec's byte-order wording for comparison). -/
def toBytesLE (len n : Nat) : List Nat :=
  (List.range len).map fun i => n / 256 ^ i % 256

/-- The script-data blob as the spec words it: same field order, but every
multi-byte scalar field little-endian (spec §6 "little-endian ... for all
multi-byte scalar fields").  Compared against `scriptDataBlob`, which is
translated from the source. -/
def scriptDataBlobLE (assetId : List Nat) (outputIndex : Nat)
    (contractId : List Nat) : List Nat :=
  assetId ++ toBytesLE 8 outputIndex ++ contractId
    ++ toBytesLE 8 0 ++ toBytesLE 8 0

/-- The scratch register ids chosen by the generator and the invocation
script. -/
def scratchRegisters : List Nat :=
  [ asset_id_register, balance_register, contract_id_register
  , output_index_register, recipient_id_register, call_struct_register ]

/-- The reserved register ids the scratch registers must avoid (spec §3/§9:
zero register, frame pointer, instruction start, call gas). -/
def reservedRegisters : List Nat := [regZERO, regFP, regIS, regCGAS]

/-- The construction-time non-collision check (spec §9). -/
def registersNonColliding : Bool :=
  scratchRegisters.all fun r => !(reservedRegisters.contains r)

/-- Modelled from the spec: the generator guarded by the construction-time
validation of §9 — construct only if no scratch register id collides with a
reserved register id.  The source generator keeps this non-collision as an
invariant of its fixed register constants. -/
def generate_validated (address : List Nat) : Option (List Nat) :=
  if registersNonColliding then generate address else none

/-! ## Helper lemmas -/

/-- Every fallible conversion in `generate` succeeds, so `generate` always
returns the concrete byte stream `generateBytes`. -/
theorem generate_eq (address : List Nat) :
    generate address = some (generateBytes address) := by
  simp [generate, generateBytes, start_jump, body, tryIntoU32, tryIntoU16,
    startJumpI, bodyI, addressLen, instructionSize, assetIdLen]

theorem encodeStream_startJump_length : (encodeStream startJumpI).length = 4 := by
  decide

theorem encodeStream_body_length : (encodeStream bodyI).length = 40 := by
  decide

theorem toBytesBE_length (len n : Nat) : (toBytesBE len n).length = len := by
  simp [toBytesBE]

theorem div_mod_of_lt (n j len : Nat) (h : j < len) :
    n % 256 ^ len / 256 ^ j % 256 = n / 256 ^ j % 256 := by
  conv_rhs => rw [← Nat.mod_add_div n (256 ^ len)]
  have hpow : 256 ^ len = 256 ^ j * 256 ^ (len - j) := by
    rw [← pow_add]
    congr 1
    omega
  rw [hpow, Nat.mul_assoc, Nat.add_mul_div_left _ _ (Nat.pos_pow_of_pos j (by norm_num))]
  have : 256 ^ (len - j) * (n / (256 ^ j * 256 ^ (len - j))) =
      256 * (256 ^ (len - j - 1) * (n / (256 ^ j * 256 ^ (len - j)))) := by
    rw [← Nat.mul_assoc]
    congr 1
    rw [← pow_succ']
    congr 1
    omega
  rw [this, Nat.add_mul_mod_self_left]

/-- Peel the most significant byte off a big-endian encoding. -/
theorem toBytesBE_succ (len n : Nat) :
    toBytesBE (len + 1) n = n / 256 ^ len % 256 :: toBytesBE len (n % 256 ^ len) := by
  unfold toBytesBE
  rw [List.range_succ_eq_map, List.map_cons]
  congr 1
  rw [List.map_map]
  refine List.map_congr_left ?_
  intro i hi
  simp only [List.mem_range] at hi
  simp only [Function.comp_apply]
  have h1 : len + 1 - 1 - (i + 1) = len - 1 - i := by omega
  rw [h1]
  exact (div_mod_of_lt n (len - 1 - i) len (by omega)).symm

/-- Folding the big-endian bytes back up recovers the value. -/
theorem foldl_toBytesBE (len : Nat) : ∀ n a, n < 256 ^ len →
    (toBytesBE len n).foldl (fun acc b => acc * 256 + b) a = a * 256 ^ len + n := by
  induction len with
  | zero =>
      intro n a h
      interval_cases n
      simp [toBytesBE]
  | succ len ih =>
      intro n a h
      rw [toBytesBE_succ, List.foldl_cons]
      have hmod : n % 256 ^ len < 256 ^ len :=
        Nat.mod_lt _ (Nat.pos_pow_of_pos len (by norm_num))
      rw [ih _ _ hmod]
      have hdiv : n / 256 ^ len < 256 := by
        rw [Nat.div_lt_iff_lt_mul (Nat.pos_pow_of_pos len (by norm_num))]
        calc n < 256 ^ (len + 1) := h
        _ = 256 * 256 ^ len := by rw [pow_succ']
        _ = 256 * 256 ^ len := rfl
      rw [Nat.mod_eq_of_lt hdiv]
      have : (a * 256 + n / 256 ^ len) * 256 ^ len + n % 256 ^ len =
          a * (256 ^ len * 256) + (256 ^ len * (n / 256 ^ len) + n % 256 ^ len) := by
        ring
      rw [this, Nat.div_add_mod, pow_succ]

/-- Decoding a big-endian encoding of a value below `256 ^ len` is the
identity. -/
theorem decodeWord_toBytesBE (len n : Nat) (h : n < 256 ^ len) :
    decodeWord (toBytesBE len n) = n := by
  simpa using foldl_toBytesBE len n 0 h

theorem generateBytes_assoc (a : List Nat) :
    generateBytes a = encodeStream startJumpI ++ (a ++ encodeStream bodyI) :=
  List.append_assoc _ _ _

theorem start_and_address_length (a : List Nat) (ha : a.length = 32) :
    (encodeStream startJumpI ++ a).length = 36 := by
  rw [List.length_append, encodeStream_startJump_length, ha]

theorem generateBytes_getElem_front (a : List Nat) (i : Nat) (hi : i < 4) :
    (generateBytes a)[i]? = (encodeStream startJumpI)[i]? := by
  rw [generateBytes_assoc, List.getElem?_append,
    if_pos (by rw [encodeStream_startJump_length]; exact hi)]

theorem generateBytes_getElem_addr (a : List Nat) (ha : a.length = 32)
    (i : Nat) (hi : i < 32) : (generateBytes a)[4 + i]? = a[i]? := by
  show ((encodeStream startJumpI ++ a) ++ encodeStream bodyI)[4 + i]? = a[i]?
  rw [List.getElem?_append,
    if_pos (by rw [start_and_address_length a ha]; omega),
    List.getElem?_append_right (by rw [encodeStream_startJump_length]; omega),
    encodeStream_startJump_length]
  congr 1
  omega

theorem generateBytes_getElem_suffix (a : List Nat) (ha : a.length = 32)
    (i : Nat) (hi : 36 ≤ i) :
    (generateBytes a)[i]? = (encodeStream bodyI)[i - 36]? := by
  show ((encodeStream startJumpI ++ a) ++ encodeStream bodyI)[i]? = _
  rw [List.getElem?_append_right (by rw [start_and_address_length a ha]; omega),
    start_and_address_length a ha]

theorem generateBytes_length (a : List Nat) (ha : a.length = 32) :
    (generateBytes a).length = 76 := by
  show ((encodeStream startJumpI ++ a) ++ encodeStream bodyI).length = 76
  rw [List.length_append, start_and_address_length a ha,
    encodeStream_body_length]

/-! ## Claims -/

/-- Claim C3: the instruction stream emitted by `generate` (the start jump
followed by the body, for every address) contains exactly two return
instructions, and both return the success signal `RegId::ONE` (value 1);
no other return occurs, so the program encodes no failure-returning path. -/
theorem generate_two_success_returns :
    (∀ address, generate address =
      some (encodeStream startJumpI ++ address ++ encodeStream bodyI)) ∧
    (startJumpI ++ bodyI).filter isRet = [.ret regONE, .ret regONE] ∧
    regONE = 1 := by
  refine ⟨fun address => generate_eq address, by decide, rfl⟩

/-- Claim C4: in the body emitted by `generate`, the recipient pointer is
computed as `RegId::IS` plus exactly one instruction width (4 bytes) — the
address of the embedded recipient constant, since the start jump occupies
exactly `instructionSize` bytes at the front of the program — and that
register is the recipient operand of the `tro` instruction, together with
the output-index, balance and asset-id registers. -/
theorem recipient_pointer_transfer_operands :
    (∀ address, generate address =
      some (encodeStream startJumpI ++ address ++ encodeStream bodyI)) ∧
    bodyI[7]? = some (.addi recipient_id_register regIS instructionSize) ∧
    bodyI[8]? = some (.tro recipient_id_register output_index_register
      balance_register asset_id_register) ∧
    (encodeStream startJumpI).length = instructionSize := by
  refine ⟨fun address => generate_eq address, by decide, by decide, by decide⟩

/-- Claim C6: the invocation script loads the script-data pointer into the
scratch register, advances it by exactly `AssetId::LEN + size_of::<u64>()
= 40` bytes to the contract-id field, issues a call with the zero register
for the forwarded amount and asset operands and `RegId::CGAS` as the gas
operand, and then returns success. -/
theorem collect_fees_script_structure :
    collectFeesScript =
      [ .gtf call_struct_register 0x00 gtfScriptData
      , .addi call_struct_register call_struct_register 40
      , .call call_struct_register regZERO regZERO regCGAS
      , .ret regONE ] ∧
    assetIdLen + u64Size = 40 := by
  exact ⟨rfl, rfl⟩

/-- Claim C7: `generate` is total — each of its three fallible integer
conversions (the `ji` jump-target into `u32`, `AssetId::LEN` into `u16`,
and `Instruction::SIZE` into `u16`) succeeds, so for every address the
function returns a byte sequence and the panic branches are unreachable. -/
theorem generate_total_conversions_succeed :
    tryIntoU32 (1 + addressLen / instructionSize) = some 9 ∧
    tryIntoU16 assetIdLen = some 32 ∧
    tryIntoU16 instructionSize = some 4 ∧
    ∀ address, generate address = some (generateBytes address) := by
  refine ⟨by decide, by decide, by decide, fun address => generate_eq address⟩

/-- Claim C8: no scratch register id used by the generated program
(`0x10`–`0x14`) or the invocation script (`0x10`) collides with a reserved
register (zero, frame pointer, instruction start, call gas), and the
construction-time validation of this non-collision passes: the generator
guarded by the check agrees with `generate` on every input. -/
theorem scratch_registers_noncolliding_validated :
    registersNonColliding = true ∧
    ∀ address, generate_validated address = generate address := by
  refine ⟨by decide, fun address => ?_⟩
  have h : registersNonColliding = true := by decide
  simp [generate_validated, h]

/-- Claim C9: both constructions are deterministic — identical address
inputs give byte-identical `generate` output, and identical asset id,
output index and contract id give an identical script-data blob (both are
pure functions of their inputs). -/
theorem generators_deterministic (a b : List Nat) (hab : a = b)
    (x₁ x₂ : List Nat) (i₁ i₂ : Nat) (c₁ c₂ : List Nat)
    (hx : x₁ = x₂) (hi : i₁ = i₂) (hc : c₁ = c₂) :
    generate a = generate b ∧
    scriptDataBlob x₁ i₁ c₁ = scriptDataBlob x₂ i₂ c₂ := by
  subst hab hx hi hc
  exact ⟨rfl, rfl⟩

theorem generators_deterministic_witness :
    generate (List.replicate 32 7) = generate (List.replicate 32 7) ∧
    scriptDataBlob (List.replicate 32 9) 1 (List.replicate 32 5) =
      scriptDataBlob (List.replicate 32 9) 1 (List.replicate 32 5) :=
  generators_deterministic _ _ rfl _ _ _ _ _ _ rfl rfl rfl

/-- Claim C2: in the body emitted by `generate`, the balance query is
followed by `jnzf balance_register RegId::ZERO 1` at body word 5 and
`ret RegId::ONE` at body word 6; with a zero balance the `jnzf` falls
through to word 6, so the next executed instruction returns success with
signal 1 and no transfer instruction is among the instructions executed up
to that return, while a nonzero balance jumps to word 7, skipping forward
exactly one instruction past that return. -/
theorem zero_balance_early_return (b : Nat) (hb : b ≠ 0) :
    (∀ address, generate address =
      some (encodeStream startJumpI ++ address ++ encodeStream bodyI)) ∧
    bodyI[4]? = some (.bal balance_register asset_id_register
      contract_id_register) ∧
    bodyI[5]? = some (.jnzf balance_register regZERO 1) ∧
    bodyI[6]? = some (.ret regONE) ∧
    jnzfNextWord 0 0 1 5 = 6 ∧
    jnzfNextWord b 0 1 5 = 7 ∧
    (bodyI.take 7).all (fun i => !(isTro i)) = true := by
  refine ⟨fun address => generate_eq address, by decide, by decide, by decide,
    by decide, ?_, by decide⟩
  simp [jnzfNextWord, hb]

theorem zero_balance_early_return_witness :
    (1 : Nat) ≠ 0 ∧
    ((∀ address, FeeCollection.generate address =
      some (encodeStream startJumpI ++ address ++ encodeStream bodyI)) ∧
    bodyI[4]? = some (.bal balance_register asset_id_register
      contract_id_register) ∧
    bodyI[5]? = some (.jnzf balance_register regZERO 1) ∧
    bodyI[6]? = some (.ret regONE) ∧
    jnzfNextWord 0 0 1 5 = 6 ∧
    jnzfNextWord 1 0 1 5 = 7 ∧
    (bodyI.take 7).all (fun i => !(isTro i)) = true) :=
  ⟨by decide, zero_balance_early_return 1 (by decide)⟩

/-- Claim C5 counterexample: the multi-byte scalar fields of the
script-data blob are not little-endian — with output index 1 the blob
produced by the source places the byte 1 at offset 39 (big-endian), not at
offset 32 as the little-endian reading requires, so the blob differs from
the spec-worded little-endian blob. -/
theorem scriptDataBlob_little_endian_false :
    scriptDataBlob (List.replicate 32 0) 1 (List.replicate 32 0) ≠
      scriptDataBlobLE (List.replicate 32 0) 1 (List.replicate 32 0) ∧
    (scriptDataBlob (List.replicate 32 0) 1 (List.replicate 32 0))[32]? =
      some 0 ∧
    (scriptDataBlob (List.replicate 32 0) 1 (List.replicate 32 0))[39]? =
      some 1 ∧
    (scriptDataBlobLE (List.replicate 32 0) 1 (List.replicate 32 0))[32]? =
      some 1 := by
  refine ⟨by decide, by decide, by decide, by decide⟩

/-- Claim C5 (amended): the script-data blob is the fixed-order
concatenation of the 32 asset-id bytes, the output index as 8 bytes, the
32 contract-id bytes, and two 8-byte zero fields, with every multi-byte
scalar field big-endian (the canonical Fuel integer byte order): decoding
the 8 output-index bytes most-significant-first recovers the index. -/
theorem scriptDataBlob_layout_big_endian (assetId : List Nat) (idx : Nat)
    (cid : List Nat) (ha : assetId.length = 32) (hc : cid.length = 32)
    (hi : idx < 2 ^ 64) :
    (scriptDataBlob assetId idx cid).length = 88 ∧
    (scriptDataBlob assetId idx cid).take 32 = assetId ∧
    ((scriptDataBlob assetId idx cid).drop 32).take 8 = toBytesBE 8 idx ∧
    ((scriptDataBlob assetId idx cid).drop 40).take 32 = cid ∧
    (scriptDataBlob assetId idx cid).drop 72 = List.replicate 16 0 ∧
    decodeWord (toBytesBE 8 idx) = idx := by
  have h256 : (256 : Nat) ^ 8 = 2 ^ 64 := by norm_num
  have hg : scriptDataBlob assetId idx cid =
      assetId ++ (toBytesBE 8 idx ++ (cid ++ (toBytesBE 8 0 ++ toBytesBE 8 0))) := by
    simp [scriptDataBlob]
  have h40 : (assetId ++ toBytesBE 8 idx).length = 40 := by
    rw [List.length_append, ha, toBytesBE_length]
  have h72 : ((assetId ++ toBytesBE 8 idx) ++ cid).length = 72 := by
    rw [List.length_append, h40, hc]
  refine ⟨?_, ?_, ?_, ?_, ?_, decodeWord_toBytesBE 8 idx (by omega)⟩
  · rw [hg]
    simp [ha, hc, toBytesBE_length]
  · rw [hg, List.take_left' ha]
  · rw [hg, List.drop_left' ha, List.take_left' (toBytesBE_length 8 idx)]
  · rw [hg, ← List.append_assoc, List.drop_left' h40, List.take_left' hc]
  · rw [hg, ← List.append_assoc, ← List.append_assoc, List.drop_left' h72]
    decide

theorem scriptDataBlob_layout_big_endian_witness :
    (List.replicate 32 9 : List Nat).length = 32 ∧
    (List.replicate 32 5 : List Nat).length = 32 ∧
    (1 : Nat) < 2 ^ 64 ∧
    ((scriptDataBlob (List.replicate 32 9) 1 (List.replicate 32 5)).length = 88 ∧
    (scriptDataBlob (List.replicate 32 9) 1 (List.replicate 32 5)).take 32 =
      List.replicate 32 9 ∧
    ((scriptDataBlob (List.replicate 32 9) 1 (List.replicate 32 5)).drop 32).take 8 =
      toBytesBE 8 1 ∧
    ((scriptDataBlob (List.replicate 32 9) 1 (List.replicate 32 5)).drop 40).take 32 =
      List.replicate 32 5 ∧
    (scriptDataBlob (List.replicate 32 9) 1 (List.replicate 32 5)).drop 72 =
      List.replicate 16 0 ∧
    decodeWord (toBytesBE 8 1) = 1) :=
  ⟨by decide, by decide, by decide,
    scriptDataBlob_layout_big_endian _ 1 _ (by decide) (by decide) (by decide)⟩

/-- Claim C1: for every 32-byte address, the output of `generate` begins
with exactly one 4-byte instruction word, followed immediately by the 32
bytes of the address, followed by a nonempty fixed-length (40-byte) body;
and the leading word decodes as the jump-immediate `ji` with target
`1 + ceil(32 / 4) = 9` instruction words. -/
theorem generate_layout_exact (address : List Nat) (h : address.length = 32) :
    generate address = some (generateBytes address) ∧
    (generateBytes address).take instructionSize = encodeInstr (.ji 9) ∧
    ((generateBytes address).drop instructionSize).take addressLen = address ∧
    ((generateBytes address).drop (instructionSize + addressLen)).length = 40 ∧
    (generateBytes address).drop (instructionSize + addressLen) ≠ [] ∧
    wordOpcode (decodeWord ((generateBytes address).take instructionSize)) =
      opcodeOf (.ji 9) ∧
    wordImm24 (decodeWord ((generateBytes address).take instructionSize)) =
      1 + (addressLen + instructionSize - 1) / instructionSize ∧
    1 + (addressLen + instructionSize - 1) / instructionSize = 9 := by
  have hji : (encodeStream startJumpI).length = instructionSize := by decide
  have htake : (generateBytes address).take instructionSize =
      encodeStream startJumpI := by
    rw [generateBytes_assoc, List.take_left' hji]
  have hdrop : (generateBytes address).drop (instructionSize + addressLen) =
      encodeStream bodyI := by
    show ((encodeStream startJumpI ++ address) ++ encodeStream bodyI).drop
        (instructionSize + addressLen) = _
    exact List.drop_left' (start_and_address_length address h)
  refine ⟨generate_eq address, ?_, ?_, ?_, ?_, ?_, ?_, by decide⟩
  · rw [htake]; decide
  · rw [generateBytes_assoc, List.drop_left' hji]
    exact List.take_left' h
  · rw [hdrop]; decide
  · rw [hdrop]; decide
  · rw [htake]; decide
  · rw [htake]; decide

theorem generate_layout_exact_witness :
    (List.replicate 32 7 : List Nat).length = 32 ∧
    (generate (List.replicate 32 7) = some (generateBytes (List.replicate 32 7)) ∧
    (generateBytes (List.replicate 32 7)).take instructionSize =
      encodeInstr (.ji 9) ∧
    ((generateBytes (List.replicate 32 7)).drop instructionSize).take addressLen =
      List.replicate 32 7 ∧
    ((generateBytes (List.replicate 32 7)).drop
      (instructionSize + addressLen)).length = 40 ∧
    (generateBytes (List.replicate 32 7)).drop (instructionSize + addressLen) ≠
      [] ∧
    wordOpcode (decodeWord ((generateBytes (List.replicate 32 7)).take
      instructionSize)) = opcodeOf (.ji 9) ∧
    wordImm24 (decodeWord ((generateBytes (List.replicate 32 7)).take
      instructionSize)) =
      1 + (addressLen + instructionSize - 1) / instructionSize ∧
    1 + (addressLen + instructionSize - 1) / instructionSize = 9) :=
  ⟨by decide, generate_layout_exact _ (by decide)⟩

/-- Claim C10: the output of `generate` depends on the address only through
the embedded-constant slot — for any two 32-byte addresses the outputs have
the same length 76 (one jump word, 32 address bytes, ten body words) and
agree at every byte position below 4 and at every position from 36 on,
while positions 4 through 35 hold the respective address bytes. -/
theorem generate_address_slot_only (a₁ a₂ : List Nat)
    (h₁ : a₁.length = 32) (h₂ : a₂.length = 32) :
    (generateBytes a₁).length = 76 ∧
    (generateBytes a₂).length = 76 ∧
    (∀ i, i < 4 → (generateBytes a₁)[i]? = (generateBytes a₂)[i]?) ∧
    (∀ i, 36 ≤ i → (generateBytes a₁)[i]? = (generateBytes a₂)[i]?) ∧
    (∀ i, i < 32 → (generateBytes a₁)[4 + i]? = a₁[i]?) ∧
    (∀ i, i < 32 → (generateBytes a₂)[4 + i]? = a₂[i]?) := by
  refine ⟨generateBytes_length a₁ h₁, generateBytes_length a₂ h₂,
    fun i hi => ?_, fun i hi => ?_,
    fun i hi => generateBytes_getElem_addr a₁ h₁ i hi,
    fun i hi => generateBytes_getElem_addr a₂ h₂ i hi⟩
  · rw [generateBytes_getElem_front a₁ i hi, generateBytes_getElem_front a₂ i hi]
  · rw [generateBytes_getElem_suffix a₁ h₁ i hi,
      generateBytes_getElem_suffix a₂ h₂ i hi]

theorem generate_address_slot_only_witness :
    (List.replicate 32 7 : List Nat).length = 32 ∧
    (List.replicate 32 9 : List Nat).length = 32 ∧
    ((generateBytes (List.replicate 32 7)).length = 76 ∧
    (generateBytes (List.replicate 32 9)).length = 76 ∧
    (∀ i, i < 4 → (generateBytes (List.replicate 32 7))[i]? =
      (generateBytes (List.replicate 32 9))[i]?) ∧
    (∀ i, 36 ≤ i → (generateBytes (List.replicate 32 7))[i]? =
      (generateBytes (List.replicate 32 9))[i]?) ∧
    (∀ i, i < 32 → (generateBytes (List.replicate 32 7))[4 + i]? =
      (List.replicate 32 7 : List Nat)[i]?) ∧
    (∀ i, i < 32 → (generateBytes (List.replicate 32 9))[4 + i]? =
      (List.replicate 32 9 : List Nat)[i]?)) :=
  ⟨by decide, by decide,
    generate_address_slot_only _ _ (by decide) (by decide)⟩

end FeeCollection
